import Mathlib

/-!
Verification development for the tunnelman repository.

The definitions below are a shallow embedding of the Go source:
  * `models/cloudflare.go` — ingress-rule editing (`AddPublicHostname`,
    `UpdatePublicHostname`, `RemovePublicHostname`), status resolution
    (`GetTunnelStatus`), and the DNS-after-push pipeline;
  * the tunnel manager file (`src/unnamed/part_007`) — the process
    supervisor (`StartTunnel`, `StopTunnel`, `stopProcess`,
    `GetTunnelStatus`).

Go machine integers (`int`, 64-bit) are modelled as `Int` with explicit
two's-complement wrapping (`wrap64`); `strconv.Atoi` / `strconv.Itoa`
are modelled by `goAtoi` / `goItoa` including the int64 range check.
Effectful operations are modelled by passing the outcomes of the
environment (remote API, OS process primitives) explicitly.
-/

deriving instance DecidableEq for Except

namespace Tunnelman

/-- Tunnel status enumeration (`TunnelStatus` constants in the source:
`StatusActive`, `StatusInactive`, `StatusError`, `StatusUnknown`). -/
inductive TunnelStatus where
  | active
  | inactive
  | err
  | unknown
deriving DecidableEq, Repr

/-! ## Go 64-bit integers and `strconv` -/

/-- Largest value of Go's 64-bit `int`. -/
def int64Max : Int := 9223372036854775807

/-- Smallest value of Go's 64-bit `int`. -/
def int64Min : Int := -9223372036854775808

/-- Two's-complement wrapping of an integer into the 64-bit range,
modelling Go's defined signed-overflow behaviour of `int` arithmetic. -/
def wrap64 (n : Int) : Int :=
  (n + 9223372036854775808) % 18446744073709551616 - 9223372036854775808

/-- Numeric value of an ASCII digit character. -/
def digitVal (c : Char) : Nat := c.toNat - 48

/-- Parse a non-empty all-digit character list into a natural number
(the digit-consuming core of `strconv.Atoi`). -/
def digitsToNat (cs : List Char) : Option Nat :=
  if cs = [] then none
  else if cs.all Char.isDigit then
    some (cs.foldl (fun a c => a * 10 + digitVal c) 0)
  else none

/-- Model of Go `strconv.Atoi` on a 64-bit platform: optional sign,
decimal digits, and the int64 range check (out-of-range input returns
an error in Go, modelled here as `none`). -/
def goAtoi (s : String) : Option Int :=
  match s.data with
  | [] => none
  | c :: rest =>
    if c = '-' then
      (digitsToNat rest).bind (fun n =>
        if (n : Int) > 9223372036854775808 then none else some (-(n : Int)))
    else if c = '+' then
      (digitsToNat rest).bind (fun n =>
        if (n : Int) > int64Max then none else some ((n : Int)))
    else
      (digitsToNat (c :: rest)).bind (fun n =>
        if (n : Int) > int64Max then none else some ((n : Int)))

/-- Decimal digits of a natural number, most significant first.
Structural recursion on an explicit fuel argument (`fuel > n`). -/
def natDigitsAux (fuel n : Nat) : List Char :=
  match fuel with
  | 0 => []
  | fuel + 1 =>
    if n < 10 then [Char.ofNat (48 + n)]
    else natDigitsAux fuel (n / 10) ++ [Char.ofNat (48 + n % 10)]

/-- Decimal digit characters of a natural number. -/
def natDigits (n : Nat) : List Char := natDigitsAux (n + 1) n

/-- Model of Go `strconv.Itoa`: decimal rendering with a leading minus
sign for negative values. -/
def goItoa (n : Int) : String :=
  if n < 0 then String.mk ('-' :: natDigits (-n).toNat)
  else String.mk (natDigits n.toNat)

/-! ## Ingress-rule data model (`models/cloudflare.go`) -/

/-- One ingress rule of the remote tunnel configuration
(`TunnelConfigIngress`). The `originRequest` JSON object is modelled as
an opaque key/value list. -/
structure TunnelConfigIngress where
  id : String
  hostname : String
  path : String
  service : String
  originRequest : List (String × String)
deriving DecidableEq, Repr

/-- `WarpRouting`. -/
structure WarpRouting where
  enabled : Bool
deriving DecidableEq, Repr

/-- `TunnelConfigData`: the ordered ingress rule list plus the
warp-routing flag. -/
structure TunnelConfigData where
  ingress : List TunnelConfigIngress
  warpRouting : WarpRouting
deriving DecidableEq, Repr

/-- One step of the `maxID` loop in `AddPublicHostname`: non-empty ids
that parse as integers and exceed the accumulator replace it. -/
def maxIdStep (acc : Int) (r : TunnelConfigIngress) : Int :=
  if r.id ≠ "" then
    match goAtoi r.id with
    | some v => if v > acc then v else acc
    | none => acc
  else acc

/-- `maxID` computation of `AddPublicHostname`: fold of `maxIdStep`
over the rule list starting from 0. -/
def maxNumId (l : List TunnelConfigIngress) : Int := l.foldl maxIdStep 0

/-- The effective contribution of one rule to the `maxID` fold: its
parsed id when the id is non-empty and numeric (floored at 0), and 0
otherwise. -/
def idContrib (r : TunnelConfigIngress) : Int :=
  if r.id ≠ "" then
    match goAtoi r.id with
    | some v => max v 0
    | none => 0
  else 0

/-- Default service target used when the caller passes an empty
service string. -/
def defaultService : String := "http://localhost:8080"

/-- Path normalization applied to caller-supplied paths: the empty
path becomes the wildcard `*`. -/
def normPath (p : String) : String := if p = "" then "*" else p

/-- Service normalization: an empty service becomes `defaultService`. -/
def normService (s : String) : String := if s = "" then defaultService else s

/-- The rule constructed by `AddPublicHostname` (lines 563-573):
fresh id `maxID + 1` (Go int arithmetic), the given hostname and
service, and the path stored only when it is not the wildcard.
`hostname`, `path` and `service` here are the already-normalized
values. -/
def newIngressRule (cfg : TunnelConfigData) (hostname path service : String) :
    TunnelConfigIngress :=
  { id := goItoa (wrap64 (maxNumId cfg.ingress + 1)),
    hostname := hostname,
    path := if path ≠ "*" then path else "",
    service := service,
    originRequest := [] }

/-- Pure ingress-editing core of `AddPublicHostname`
(`models/cloudflare.go` lines 529-582): normalize path and service,
reject when some rule matches the hostname and the normalized path
exactly, otherwise splice the new rule immediately before the first
empty-hostname rule (append when none exists). -/
def addIngress (cfg : TunnelConfigData) (hostname path service : String) :
    Except String TunnelConfigData :=
  let path := normPath path
  let service := normService service
  if cfg.ingress.any (fun r => r.hostname == hostname && r.path == path) then
    Except.error ("hostname " ++ hostname ++ " with path " ++ path ++ " already exists")
  else
    let nr := newIngressRule cfg hostname path service
    match cfg.ingress.findIdx? (fun r => r.hostname == "") with
    | some i => Except.ok { cfg with ingress := cfg.ingress.take i ++ nr :: cfg.ingress.drop i }
    | none => Except.ok { cfg with ingress := cfg.ingress ++ [nr] }

/-- First-match update helper mirroring the pointer-update loop of
`UpdatePublicHostname`: replace the first rule whose hostname equals
`orig` by `fn` applied to it. -/
def updateFirst (l : List TunnelConfigIngress) (orig : String)
    (fn : TunnelConfigIngress → TunnelConfigIngress) :
    Option (List TunnelConfigIngress) :=
  match l with
  | [] => none
  | r :: rest =>
    if r.hostname == orig then some (fn r :: rest)
    else (updateFirst rest orig fn).map (r :: ·)

/-- Pure core of `UpdatePublicHostname` (`models/cloudflare.go` lines
605-645): find the first rule with the original hostname, then replace
hostname, service, and path (wildcard stored as the empty string). -/
def updateIngress (cfg : TunnelConfigData)
    (originalHostname newHostname path service : String) :
    Except String TunnelConfigData :=
  let path := normPath path
  let service := normService service
  match updateFirst cfg.ingress originalHostname (fun r =>
      { r with hostname := newHostname, service := service,
               path := if path ≠ "*" then path else "" }) with
  | some l => Except.ok { cfg with ingress := l }
  | none => Except.error ("hostname " ++ originalHostname ++ " not found")

/-- The `ingressPath` read in the removal loop of
`RemovePublicHostname`: an empty stored path is read as `*`. -/
def storedPath (r : TunnelConfigIngress) : String :=
  if r.path == "" then "*" else r.path

/-- First-match removal helper mirroring the loop of
`RemovePublicHostname`: the stored path is normalized (`""` read as
`*`) before comparison with the already-normalized requested path. -/
def removeFirst (l : List TunnelConfigIngress) (hostname path : String) :
    Option (List TunnelConfigIngress) :=
  match l with
  | [] => none
  | r :: rest =>
    if r.hostname == hostname && storedPath r == path then
      some rest
    else (removeFirst rest hostname path).map (r :: ·)

/-- Pure core of `RemovePublicHostname` (`models/cloudflare.go` lines
647-678). -/
def removeIngress (cfg : TunnelConfigData) (hostname path : String) :
    Except String TunnelConfigData :=
  let path := normPath path
  match removeFirst cfg.ingress hostname path with
  | some l => Except.ok { cfg with ingress := l }
  | none => Except.error ("hostname " ++ hostname ++ " with path " ++ path ++ " not found")

/-- Whether the last rule of the list exists and is the catch-all
(empty hostname). -/
def isCatchAllLast (l : List TunnelConfigIngress) : Bool :=
  match l.getLast? with
  | some r => r.hostname == ""
  | none => false

/-- The validity invariant of the spec: exactly one rule has an empty
hostname and it is the last element. -/
def validIngress (l : List TunnelConfigIngress) : Bool :=
  (l.countP (fun r => r.hostname == "") == 1) && isCatchAllLast l

/-- Sequential insertion of a list of (hostname, path, service)
requests into one configuration, as a caller issuing repeated
`AddPublicHostname` calls would. Returns the final configuration and
the numeric ids assigned by the successful inserts, in order. -/
def insertReqs (cfg : TunnelConfigData) :
    List (String × String × String) → TunnelConfigData × List Int
  | [] => (cfg, [])
  | (h, p, s) :: rest =>
    match addIngress cfg h p s with
    | Except.ok cfg' =>
      let out := insertReqs cfg' rest
      (out.1, wrap64 (maxNumId cfg.ingress + 1) :: out.2)
    | Except.error _ => insertReqs cfg rest

/-! ## Status resolution (`CloudflareClient.GetTunnelStatus`) -/

/-- One tunnel connection as reported by `cloudflared tunnel info`
(`CLITunnelConnection`); `openedAt` is modelled as seconds. -/
structure CLITunnelConnection where
  coloName : String
  id : String
  isPendingReconnect : Bool
  originIP : String
  openedAt : Nat
deriving DecidableEq, Repr

/-- A tunnel as reported by the CLI (`CLITunnel`); `createdAt` is
modelled as seconds. -/
structure CLITunnel where
  id : String
  name : String
  createdAt : Nat
  connections : List CLITunnelConnection
deriving DecidableEq, Repr

/-- `CloudflareClient.GetTunnelStatus` (`models/cloudflare.go` lines
812-835), with the result of the underlying `GetTunnelInfo` call
passed in explicitly: a failed fetch yields `unknown` with the error,
an empty connection list yields `inactive`, any connection that is not
pending reconnect yields `active`, otherwise `inactive`. -/
def CloudflareClient.getTunnelStatus (fetch : Except String CLITunnel) :
    TunnelStatus × Option String :=
  match fetch with
  | Except.error e => (TunnelStatus.unknown, some e)
  | Except.ok tunnel =>
    if tunnel.connections.length = 0 then (TunnelStatus.inactive, none)
    else if tunnel.connections.any (fun c => !c.isPendingReconnect) then
      (TunnelStatus.active, none)
    else (TunnelStatus.inactive, none)

/-! ## Process supervisor (`TunnelManager`) -/

/-- One ingress rule of the locally persisted YAML runner config
(`IngressRule` in the tunnel manager file). -/
structure IngressRule where
  hostname : String
  service : String
  path : String
deriving DecidableEq, Repr

/-- The locally persisted runner config (`TunnelConfigFile`). -/
structure TunnelConfigFile where
  tunnelId : String
  credentialsFile : String
  ingress : List IngressRule
  logLevel : String
deriving DecidableEq, Repr

/-- A managed subprocess entry (`TunnelProcess`). `hasHandle` models
`Process != nil`; `alive` models whether `Signal(0)` on the OS process
currently succeeds (`IsRunning`). In this sequential model `alive` is
changed only by supervisor actions. -/
structure TunnelProcess where
  pid : Nat
  tunnelId : String
  name : String
  command : List String
  startTime : Nat
  status : TunnelStatus
  config : Option TunnelConfigFile
  hasHandle : Bool
  alive : Bool
deriving DecidableEq, Repr

/-- `TunnelProcess.IsRunning`: false when no process handle is held,
otherwise the result of the `Signal(0)` liveness probe. -/
def TunnelProcess.isRunning (p : TunnelProcess) : Bool :=
  p.hasHandle && p.alive

/-- The supervisor registry (`tm.processes`), as an association list
keyed by tunnel name (Go map keys are unique). -/
abbrev Registry := List (String × TunnelProcess)

/-- Registry lookup (`tm.processes[name]`). -/
def lookupProc (reg : Registry) (name : String) : Option TunnelProcess :=
  (List.find? (fun e => e.1 == name) reg).map Prod.snd

/-- In-place mutation of the entry for `name` (the Go registry stores
pointers, so mutating a looked-up process updates the map entry). -/
def setProc (reg : Registry) (name : String) (p : TunnelProcess) : Registry :=
  List.map (fun e => if e.1 == name then (e.1, p) else e) reg

/-- Map insertion `tm.processes[name] = p`: replaces an existing entry
for the key, otherwise appends a new one. -/
def insertProc (reg : Registry) (name : String) (p : TunnelProcess) : Registry :=
  if List.any reg (fun e => e.1 == name) then setProc reg name p
  else reg ++ [(name, p)]

/-- Outcomes of the environment during a `StartTunnel` call: whether
writing the config file fails, whether `cmd.Start()` fails, and the
pid the OS assigns on success. -/
structure StartBehavior where
  saveConfigFails : Bool
  spawnFails : Bool
  pid : Nat
deriving DecidableEq, Repr

/-- The part of `StartTunnel` after the conflict check: config
persistence (only when a config is given), spawn, and registry
insertion of the new `active` entry. -/
def TunnelManager.startTunnelSpawn (reg : Registry) (configDir tunnelName : String)
    (config : Option TunnelConfigFile) (b : StartBehavior) (now : Nat) :
    Except String TunnelProcess × Registry × List Nat :=
  if config.isSome && b.saveConfigFails then
    (Except.error "failed to save config", reg, [])
  else if b.spawnFails then
    (Except.error "failed to start tunnel", reg, [])
  else
    let args := match config with
      | some _ => ["tunnel", "--config", configDir ++ "/" ++ tunnelName ++ ".yml",
                   "run", tunnelName]
      | none => ["tunnel", "run", tunnelName]
    let p : TunnelProcess :=
      { pid := b.pid, tunnelId := tunnelName, name := tunnelName,
        command := "cloudflared" :: args, startTime := now,
        status := TunnelStatus.active, config := config,
        hasHandle := true, alive := true }
    (Except.ok p, insertProc reg tunnelName p, [b.pid])

/-- `TunnelManager.StartTunnel` (tunnel manager file lines 77-122),
with the environment's outcomes passed in. Fails with a conflict error
when a registry entry for the name exists and its process is running;
otherwise persists the config (when given), spawns `cloudflared`, and
inserts an `active` entry. The third component lists the pids of
processes spawned by the call. -/
def TunnelManager.startTunnel (reg : Registry) (configDir tunnelName : String)
    (config : Option TunnelConfigFile) (b : StartBehavior) (now : Nat) :
    Except String TunnelProcess × Registry × List Nat :=
  match lookupProc reg tunnelName with
  | some p =>
    if p.isRunning then
      (Except.error ("tunnel " ++ tunnelName ++ " is already running with PID "
        ++ toString p.pid), reg, [])
    else TunnelManager.startTunnelSpawn reg configDir tunnelName config b now
  | none => TunnelManager.startTunnelSpawn reg configDir tunnelName config b now

/-- The fixed grace timeout (seconds) of the two-phase shutdown
(`time.After(10 * time.Second)` in `stopProcess`). -/
def stopGraceSeconds : Nat := 10

/-- Outcomes of the environment during a `stopProcess` call: whether
the SIGTERM send fails, how many seconds until the process exits
(`none` = it never exits), the error value delivered by `Wait`, and
whether the forced `Kill` fails. -/
structure StopBehavior where
  sigtermFails : Bool
  exitTime : Option Nat
  waitError : Option String
  killFails : Bool
deriving DecidableEq, Repr

/-- Whether the process exits strictly before the 10-second timer
fires, i.e. the `done` branch of the `select` is taken. -/
def exitsWithinGrace (b : StopBehavior) : Bool :=
  match b.exitTime with
  | some t => t < stopGraceSeconds
  | none => false

/-- Signals issued to the OS process during a stop. -/
inductive ProcSignal where
  | sigterm
  | kill
deriving DecidableEq, Repr

/-- `TunnelManager.stopProcess` (tunnel manager file lines 187-214):
missing handle is an error; a failed SIGTERM send is an error; if the
process exits within the grace window the status becomes `inactive`
and the `Wait` error (possibly none) is returned; on timeout a forced
kill is issued — when it fails the call errors WITHOUT touching the
status, when it succeeds the status becomes `inactive`. The third
component records the signals sent. -/
def TunnelManager.stopProcess (p : TunnelProcess) (b : StopBehavior) :
    Except String Unit × TunnelProcess × List ProcSignal :=
  if !p.hasHandle then
    (Except.error "process handle not available", p, [])
  else if b.sigtermFails then
    (Except.error "failed to send SIGTERM", p, [ProcSignal.sigterm])
  else if exitsWithinGrace b then
    ((match b.waitError with
      | some e => Except.error e
      | none => Except.ok ()),
     { p with status := TunnelStatus.inactive }, [ProcSignal.sigterm])
  else if b.killFails then
    (Except.error "failed to kill process", p, [ProcSignal.sigterm, ProcSignal.kill])
  else
    (Except.ok (), { p with status := TunnelStatus.inactive },
     [ProcSignal.sigterm, ProcSignal.kill])

/-- `TunnelManager.StopTunnel` (tunnel manager file lines 158-168):
registry lookup, then `stopProcess`; the mutated entry is written back
(the registry holds pointers). -/
def TunnelManager.stopTunnel (reg : Registry) (tunnelName : String) (b : StopBehavior) :
    Except String Unit × Registry × List ProcSignal :=
  match lookupProc reg tunnelName with
  | none => (Except.error ("tunnel " ++ tunnelName ++ " is not running"), reg, [])
  | some p =>
    let out := TunnelManager.stopProcess p b
    (out.1, setProc reg tunnelName out.2.1, out.2.2)

/-- `TunnelManager.GetTunnelStatus` (tunnel manager file lines
233-248): no registry entry yields `inactive` with no error; an entry
whose process is not running yields `inactive` (and normalizes the
stored status); otherwise the stored status is returned. -/
def TunnelManager.getTunnelStatus (reg : Registry) (tunnelName : String) :
    (TunnelStatus × Option String) × Registry :=
  match lookupProc reg tunnelName with
  | none => ((TunnelStatus.inactive, none), reg)
  | some p =>
    if !p.isRunning then
      ((TunnelStatus.inactive, none),
       setProc reg tunnelName { p with status := TunnelStatus.inactive })
    else ((p.status, none), reg)

/-! ## Full `AddPublicHostname` pipeline (ingress push + DNS sync) -/

/-- Outcomes of the remote environment during `AddPublicHostname`:
the fetched configuration (or fetch error), whether the configuration
push succeeds, the tunnel-info lookup result (tunnel name or error),
and whether the CNAME creation succeeds. -/
structure RemoteEnv where
  fetchResult : Except String TunnelConfigData
  pushSucceeds : Bool
  tunnelInfoResult : Except String String
  dnsCreateSucceeds : Bool
deriving DecidableEq, Repr

/-- `CloudflareClient.AddPublicHostname` (`models/cloudflare.go` lines
523-603) end to end: fetch, pure ingress edit, push, then the
dependent DNS synchronization whose failures are demoted to warnings.
Returns the call result, the list of configurations successfully
pushed to the remote (the remote state changes), and the warnings
printed. -/
def CloudflareClient.addPublicHostname (env : RemoteEnv)
    (hostname path service : String) :
    Except String Unit × List TunnelConfigData × List String :=
  match env.fetchResult with
  | Except.error e => (Except.error e, [], [])
  | Except.ok cfg =>
    match addIngress cfg hostname path service with
    | Except.error e => (Except.error e, [], [])
    | Except.ok cfg' =>
      if !env.pushSucceeds then
        (Except.error "failed to update tunnel configuration", [], [])
      else
        match env.tunnelInfoResult with
        | Except.error e =>
          (Except.ok (), [cfg'],
           ["Warning: Failed to get tunnel info for DNS creation: " ++ e])
        | Except.ok _tunnelName =>
          if env.dnsCreateSucceeds then (Except.ok (), [cfg'], [])
          else
            (Except.ok (), [cfg'],
             ["Warning: Failed to create DNS record for " ++ hostname])

/-! ## Helper lemmas: decimal parsing and rendering -/

theorem digitsToNat_eq_some_iff (l : List Char) (m : Nat) :
    digitsToNat l = some m ↔
      l ≠ [] ∧ l.all Char.isDigit = true ∧
        l.foldl (fun a c => a * 10 + digitVal c) 0 = m := by
  unfold digitsToNat
  split_ifs <;> simp_all

theorem isDigit_ofNat_digit (d : Nat) (hd : d < 10) :
    (Char.ofNat (48 + d)).isDigit = true := by
  interval_cases d <;> decide

theorem digitVal_ofNat_digit (d : Nat) (hd : d < 10) :
    digitVal (Char.ofNat (48 + d)) = d := by
  interval_cases d <;> decide

theorem digitsToNat_append_digit (l : List Char) (c : Char) (m : Nat)
    (hl : digitsToNat l = some m) (hc : c.isDigit = true) :
    digitsToNat (l ++ [c]) = some (m * 10 + digitVal c) := by
  rw [digitsToNat_eq_some_iff] at hl ⊢
  obtain ⟨h1, h2, h3⟩ := hl
  refine ⟨by simp, ?_, ?_⟩
  · simp_all
  · rw [List.foldl_append, h3]
    simp

theorem digitsToNat_natDigitsAux (fuel : Nat) :
    ∀ n, n < fuel → digitsToNat (natDigitsAux fuel n) = some n := by
  induction fuel with
  | zero => omega
  | succ fuel ih =>
    intro n hn
    rw [natDigitsAux]
    split
    · rename_i h10
      rw [digitsToNat_eq_some_iff]
      refine ⟨by simp, by simp [isDigit_ofNat_digit n h10], ?_⟩
      simp [digitVal_ofNat_digit n h10]
    · rename_i h10
      have hrec : n / 10 < fuel := by omega
      rw [digitsToNat_append_digit _ _ _ (ih _ hrec)
            (isDigit_ofNat_digit _ (by omega))]
      rw [digitVal_ofNat_digit _ (by omega)]
      congr 1
      omega

theorem digitsToNat_natDigits (n : Nat) : digitsToNat (natDigits n) = some n :=
  digitsToNat_natDigitsAux (n + 1) n (by omega)

theorem natDigits_ne_nil (n : Nat) : natDigits n ≠ [] := by
  intro h
  have := digitsToNat_natDigits n
  rw [h] at this
  simp [digitsToNat] at this

theorem natDigits_all_isDigit (n : Nat) : (natDigits n).all Char.isDigit = true :=
  ((digitsToNat_eq_some_iff _ _).mp (digitsToNat_natDigits n)).2.1

theorem goItoa_ne_empty (m : Int) : goItoa m ≠ "" := by
  unfold goItoa
  split <;>
  · intro h
    have hd := congrArg String.data h
    simp only [String.data] at hd
    first
      | exact absurd hd (by simp)
      | exact natDigits_ne_nil _ hd

theorem goAtoi_goItoa (m : Int) (h0 : 0 ≤ m) (hmax : m ≤ int64Max) :
    goAtoi (goItoa m) = some m := by
  have h6 := digitsToNat_natDigits m.toNat
  have hall := natDigits_all_isDigit m.toNat
  unfold goItoa
  rw [if_neg (by omega)]
  cases hl : natDigits m.toNat with
  | nil => exact absurd hl (natDigits_ne_nil _)
  | cons c cs =>
    rw [hl] at h6 hall
    simp only [List.all_cons, Bool.and_eq_true] at hall
    have hc1 : ¬(c = '-') := by
      intro h
      rw [h] at hall
      exact absurd hall.1 (by decide)
    have hc2 : ¬(c = '+') := by
      intro h
      rw [h] at hall
      exact absurd hall.1 (by decide)
    show goAtoi (String.mk (c :: cs)) = some m
    unfold goAtoi
    simp only [hc1, hc2, if_false, h6, Option.some_bind]
    rw [if_neg (by
      have := Int.toNat_of_nonneg h0
      unfold int64Max at hmax ⊢
      omega)]
    rw [Int.toNat_of_nonneg h0]

theorem wrap64_of_range (n : Int) (h1 : int64Min ≤ n) (h2 : n ≤ int64Max) :
    wrap64 n = n := by
  unfold wrap64
  unfold int64Min at h1
  unfold int64Max at h2
  omega

/-! ## Helper lemmas: the `maxID` fold -/

theorem idContrib_nonneg (r : TunnelConfigIngress) : 0 ≤ idContrib r := by
  unfold idContrib
  split
  · split
    · exact le_max_right _ _
    · omega
  · omega

theorem maxIdStep_eq_max (acc : Int) (r : TunnelConfigIngress) (h : 0 ≤ acc) :
    maxIdStep acc r = max acc (idContrib r) := by
  unfold maxIdStep idContrib
  split
  · split
    · simp only [max_def]
      split_ifs <;> omega
    · simp only [max_def]
      split_ifs <;> omega
  · simp only [max_def]
    split_ifs <;> omega

theorem maxIdStep_ge (acc : Int) (r : TunnelConfigIngress) :
    acc ≤ maxIdStep acc r := by
  unfold maxIdStep
  split
  · split
    · split <;> omega
    · omega
  · omega

theorem foldl_maxIdStep_ge (l : List TunnelConfigIngress) :
    ∀ acc, acc ≤ List.foldl maxIdStep acc l := by
  induction l with
  | nil => intro acc; simp
  | cons r l ih =>
    intro acc
    calc acc ≤ maxIdStep acc r := maxIdStep_ge acc r
    _ ≤ List.foldl maxIdStep (maxIdStep acc r) l := ih _
    _ = List.foldl maxIdStep acc (r :: l) := rfl

theorem maxNumId_nonneg (l : List TunnelConfigIngress) : 0 ≤ maxNumId l :=
  foldl_maxIdStep_ge l 0

theorem foldl_maxIdStep_eq_max (l : List TunnelConfigIngress) :
    ∀ acc, 0 ≤ acc → List.foldl maxIdStep acc l = max acc (maxNumId l) := by
  induction l with
  | nil =>
    intro acc hacc
    simp [maxNumId]
    omega
  | cons r l ih =>
    intro acc hacc
    have hstep : 0 ≤ maxIdStep acc r := le_trans hacc (maxIdStep_ge acc r)
    have hstep0 : (0 : Int) ≤ maxIdStep 0 r := le_trans le_rfl (maxIdStep_ge 0 r)
    show List.foldl maxIdStep (maxIdStep acc r) l = _
    rw [ih _ hstep, maxIdStep_eq_max _ _ hacc]
    have hrl : maxNumId (r :: l) = max (idContrib r) (maxNumId l) := by
      show List.foldl maxIdStep (maxIdStep 0 r) l = _
      rw [ih _ hstep0, maxIdStep_eq_max _ _ le_rfl,
          max_eq_right (idContrib_nonneg r)]
    rw [hrl, max_assoc]

theorem maxNumId_cons (r : TunnelConfigIngress) (l : List TunnelConfigIngress) :
    maxNumId (r :: l) = max (idContrib r) (maxNumId l) := by
  show List.foldl maxIdStep (maxIdStep 0 r) l = _
  rw [foldl_maxIdStep_eq_max _ _ (le_trans le_rfl (maxIdStep_ge 0 r)),
      maxIdStep_eq_max _ _ le_rfl, max_eq_right (idContrib_nonneg r)]

theorem maxNumId_append (l1 l2 : List TunnelConfigIngress) :
    maxNumId (l1 ++ l2) = max (maxNumId l1) (maxNumId l2) := by
  unfold maxNumId
  rw [List.foldl_append]
  exact foldl_maxIdStep_eq_max l2 _ (maxNumId_nonneg l1)

theorem idContrib_le_maxNumId (r : TunnelConfigIngress)
    (l : List TunnelConfigIngress) (h : r ∈ l) : idContrib r ≤ maxNumId l := by
  induction l with
  | nil => cases h
  | cons x l ih =>
    rw [maxNumId_cons]
    rcases List.mem_cons.mp h with h | h
    · subst h; exact le_max_left _ _
    · exact le_trans (ih h) (le_max_right _ _)

theorem numeric_id_le_maxNumId (r : TunnelConfigIngress)
    (l : List TunnelConfigIngress) (v : Int) (h : r ∈ l)
    (hid : r.id ≠ "") (hv : goAtoi r.id = some v) : v ≤ maxNumId l := by
  have h1 : v ≤ idContrib r := by
    unfold idContrib
    rw [if_pos hid, hv]
    exact le_max_left _ _
  exact le_trans h1 (idContrib_le_maxNumId r l h)

/-! ## Helper lemmas: the validity invariant and the editing helpers -/

theorem validIngress_iff (l : List TunnelConfigIngress) :
    validIngress l = true ↔
      ∃ f c, l = f ++ [c] ∧ c.hostname = "" ∧ ∀ r ∈ f, r.hostname ≠ "" := by
  constructor
  · intro hv
    unfold validIngress isCatchAllLast at hv
    rw [Bool.and_eq_true] at hv
    obtain ⟨hcount, hlast⟩ := hv
    have hne : l ≠ [] := by
      intro h
      rw [h] at hlast
      simp at hlast
    refine ⟨l.dropLast, l.getLast hne, (List.dropLast_append_getLast hne).symm, ?_, ?_⟩
    · rw [List.getLast?_eq_getLast l hne] at hlast
      simpa using hlast
    · have hc1 : l.countP (fun r => r.hostname == "") = 1 := by simpa using hcount
      rw [← List.dropLast_append_getLast hne, List.countP_append] at hc1
      have hgl : (l.getLast hne).hostname = "" := by
        rw [List.getLast?_eq_getLast l hne] at hlast
        simpa using hlast
      have hclast : List.countP (fun r => r.hostname == "") [l.getLast hne] = 1 := by
        simp [List.countP_cons, hgl]
      have hzero : l.dropLast.countP (fun r => r.hostname == "") = 0 := by omega
      intro r hr
      have := List.countP_eq_zero.mp hzero r hr
      simpa using this
  · rintro ⟨f, c, rfl, hc, hf⟩
    unfold validIngress isCatchAllLast
    rw [Bool.and_eq_true]
    constructor
    · have h0 : f.countP (fun r => r.hostname == "") = 0 :=
        List.countP_eq_zero.mpr (fun r hr => by simpa using hf r hr)
      rw [List.countP_append, h0]
      simp [List.countP_cons, hc]
    · rw [List.getLast?_concat]
      simpa using hc

theorem findIdx?_append_last_aux {α : Type} (f : List α) (c : α) (p : α → Bool)
    (hf : ∀ x ∈ f, p x = false) (hc : p c = true) :
    ∀ i, List.findIdx? p (f ++ [c]) i = some (f.length + i) := by
  induction f with
  | nil =>
    intro i
    simp [List.findIdx?_cons, hc]
  | cons x f ih =>
    intro i
    have hx := hf x (List.mem_cons_self x f)
    rw [List.cons_append, List.findIdx?_cons, hx]
    simp only [Bool.false_eq_true, if_false]
    rw [ih (fun y hy => hf y (List.mem_cons_of_mem x hy)) (i + 1)]
    congr 1
    simp
    omega

theorem findIdx?_append_last {α : Type} (f : List α) (c : α) (p : α → Bool)
    (hf : ∀ x ∈ f, p x = false) (hc : p c = true) :
    List.findIdx? p (f ++ [c]) = some f.length := by
  have := findIdx?_append_last_aux f c p hf hc 0
  simpa using this

theorem addIngress_ok_iff (cfg : TunnelConfigData) (h p s : String)
    (cfg' : TunnelConfigData) :
    addIngress cfg h p s = Except.ok cfg' ↔
      cfg.ingress.any (fun r => r.hostname == h && r.path == normPath p) = false ∧
      cfg' = { cfg with ingress :=
        match cfg.ingress.findIdx? (fun r => r.hostname == "") with
        | some i => cfg.ingress.take i ++
            newIngressRule cfg h (normPath p) (normService s) :: cfg.ingress.drop i
        | none => cfg.ingress ++ [newIngressRule cfg h (normPath p) (normService s)] } := by
  by_cases hany : cfg.ingress.any (fun r => r.hostname == h && r.path == normPath p) = true
  · simp only [addIngress, hany, if_true]
    simp [hany]
  · rw [Bool.not_eq_true] at hany
    simp only [addIngress, hany, Bool.false_eq_true, if_false]
    cases hidx : cfg.ingress.findIdx? (fun r => r.hostname == "") with
    | none => simp [hidx, eq_comm]
    | some i => simp [hidx, eq_comm]

theorem updateFirst_cons (r : TunnelConfigIngress)
    (rest : List TunnelConfigIngress) (orig : String)
    (fn : TunnelConfigIngress → TunnelConfigIngress) :
    updateFirst (r :: rest) orig fn =
      if r.hostname == orig then some (fn r :: rest)
      else (updateFirst rest orig fn).map (r :: ·) := rfl

theorem updateFirst_append_last (f : List TunnelConfigIngress)
    (c : TunnelConfigIngress) (orig : String)
    (fn : TunnelConfigIngress → TunnelConfigIngress)
    (ho : orig ≠ "") (hc : c.hostname = "") :
    updateFirst (f ++ [c]) orig fn = (updateFirst f orig fn).map (· ++ [c]) := by
  induction f with
  | nil =>
    have hne : ¬(c.hostname = orig) := by
      rw [hc]
      exact Ne.symm ho
    simp [updateFirst, hne]
  | cons x f ih =>
    rw [List.cons_append, updateFirst_cons, updateFirst_cons]
    by_cases hx : x.hostname = orig
    · rw [if_pos (by simp [hx]), if_pos (by simp [hx])]
      rfl
    · rw [if_neg (by simp [hx]), if_neg (by simp [hx]), ih]
      cases updateFirst f orig fn <;> rfl

theorem updateFirst_some_all {P : TunnelConfigIngress → Prop}
    (orig : String) (fn : TunnelConfigIngress → TunnelConfigIngress)
    (hfn : ∀ x, P (fn x)) :
    ∀ f f', (∀ x ∈ f, P x) → updateFirst f orig fn = some f' →
      ∀ x ∈ f', P x := by
  intro f
  induction f with
  | nil =>
    intro f' _ h
    simp [updateFirst] at h
  | cons r rest ih =>
    intro f' hf h x hx
    unfold updateFirst at h
    by_cases hr : (r.hostname == orig) = true
    · rw [if_pos hr] at h
      injection h with h
      subst h
      rcases List.mem_cons.mp hx with rfl | h
      · exact hfn r
      · exact hf x (List.mem_cons_of_mem r h)
    · rw [if_neg hr] at h
      cases hrec : updateFirst rest orig fn with
      | none => rw [hrec] at h; simp at h
      | some l'' =>
        rw [hrec] at h
        injection h with h
        subst h
        rcases List.mem_cons.mp hx with rfl | h
        · exact hf x (List.mem_cons_self x rest)
        · exact ih l'' (fun y hy => hf y (List.mem_cons_of_mem r hy)) hrec x h

theorem updateFirst_eq_some (orig : String)
    (fn : TunnelConfigIngress → TunnelConfigIngress) :
    ∀ l l', updateFirst l orig fn = some l' →
      ∃ l1 r l2, l = l1 ++ r :: l2 ∧ (r.hostname == orig) = true ∧
        l' = l1 ++ fn r :: l2 := by
  intro l
  induction l with
  | nil =>
    intro l' h
    simp [updateFirst] at h
  | cons r rest ih =>
    intro l' h
    unfold updateFirst at h
    by_cases hr : (r.hostname == orig) = true
    · rw [if_pos hr] at h
      injection h with h
      exact ⟨[], r, rest, rfl, hr, h.symm⟩
    · rw [if_neg hr] at h
      cases hrec : updateFirst rest orig fn with
      | none => rw [hrec] at h; simp at h
      | some l'' =>
        rw [hrec] at h
        injection h with h
        obtain ⟨l1, r', l2, he, hcond, he'⟩ := ih l'' hrec
        refine ⟨r :: l1, r', l2, by rw [he]; rfl, hcond, ?_⟩
        rw [← h, he']
        rfl

theorem removeFirst_cons (r : TunnelConfigIngress)
    (rest : List TunnelConfigIngress) (hostname path : String) :
    removeFirst (r :: rest) hostname path =
      if r.hostname == hostname && storedPath r == path then some rest
      else (removeFirst rest hostname path).map (r :: ·) := rfl

theorem removeFirst_append_last (f : List TunnelConfigIngress)
    (c : TunnelConfigIngress) (hostname path : String)
    (ho : hostname ≠ "") (hc : c.hostname = "") :
    removeFirst (f ++ [c]) hostname path =
      (removeFirst f hostname path).map (· ++ [c]) := by
  induction f with
  | nil =>
    have hne : ¬(c.hostname = hostname) := by
      rw [hc]
      exact Ne.symm ho
    simp [removeFirst, hne]
  | cons x f ih =>
    rw [List.cons_append, removeFirst_cons, removeFirst_cons]
    by_cases hx : (x.hostname == hostname && storedPath x == path) = true
    · rw [if_pos hx, if_pos hx]
      rfl
    · rw [if_neg hx, if_neg hx, ih]
      cases removeFirst f hostname path <;> rfl

theorem removeFirst_some_mem (hostname path : String) :
    ∀ l l', removeFirst l hostname path = some l' → ∀ x ∈ l', x ∈ l := by
  intro l
  induction l with
  | nil =>
    intro l' h
    simp [removeFirst] at h
  | cons r rest ih =>
    intro l' h x hx
    unfold removeFirst at h
    by_cases hr : (r.hostname == hostname && storedPath r == path) = true
    · rw [if_pos hr] at h
      injection h with h
      subst h
      exact List.mem_cons_of_mem r hx
    · rw [if_neg hr] at h
      cases hrec : removeFirst rest hostname path with
      | none => rw [hrec] at h; simp at h
      | some l'' =>
        rw [hrec] at h
        injection h with h
        subst h
        rcases List.mem_cons.mp hx with rfl | h
        · exact List.mem_cons_self x rest
        · exact List.mem_cons_of_mem r (ih l'' hrec x h)

theorem updateIngress_ok_iff (cfg : TunnelConfigData) (o n p s : String)
    (cfg' : TunnelConfigData) :
    updateIngress cfg o n p s = Except.ok cfg' ↔
      ∃ l, updateFirst cfg.ingress o (fun r =>
          { r with hostname := n, service := normService s,
                   path := if normPath p ≠ "*" then normPath p else "" }) = some l ∧
        cfg' = { cfg with ingress := l } := by
  simp only [updateIngress]
  cases hu : updateFirst cfg.ingress o (fun r =>
      { r with hostname := n, service := normService s,
               path := if normPath p ≠ "*" then normPath p else "" }) with
  | none => simp [hu]
  | some l => simp [hu, eq_comm]

theorem removeIngress_ok_iff (cfg : TunnelConfigData) (h p : String)
    (cfg' : TunnelConfigData) :
    removeIngress cfg h p = Except.ok cfg' ↔
      ∃ l, removeFirst cfg.ingress h (normPath p) = some l ∧
        cfg' = { cfg with ingress := l } := by
  simp only [removeIngress]
  cases hu : removeFirst cfg.ingress h (normPath p) with
  | none => simp [hu]
  | some l => simp [hu, eq_comm]

/-! ## Helper lemmas: the supervisor registry -/

theorem find?_keyBeq_cons (name : String) (e : String × TunnelProcess)
    (rest : List (String × TunnelProcess)) :
    List.find? (fun x => x.1 == name) (e :: rest)
      = if e.1 == name then some e
        else List.find? (fun x => x.1 == name) rest := by
  by_cases hc : (e.1 == name) = true
  · rw [if_pos hc]
    exact List.find?_cons_of_pos _ (by simpa using hc)
  · rw [if_neg hc]
    exact List.find?_cons_of_neg _ (by simpa using hc)

theorem setProc_cons (e : String × TunnelProcess) (rest : Registry)
    (name : String) (p : TunnelProcess) :
    setProc (e :: rest) name p
      = (if e.1 == name then (e.1, p) else e) :: setProc rest name p := rfl

theorem lookupProc_setProc (reg : Registry) (name : String) (p0 p : TunnelProcess)
    (h : lookupProc reg name = some p0) :
    lookupProc (setProc reg name p) name = some p := by
  induction reg generalizing p0 with
  | nil => simp [lookupProc] at h
  | cons e rest ih =>
    by_cases he : (e.1 == name) = true
    · rw [setProc_cons, if_pos he]
      unfold lookupProc
      rw [find?_keyBeq_cons, if_pos (by simpa using he)]
      rfl
    · rw [setProc_cons, if_neg he]
      unfold lookupProc at h ⊢
      rw [find?_keyBeq_cons, if_neg he]
      rw [find?_keyBeq_cons, if_neg he] at h
      exact ih p0 h

theorem lookupProc_insertProc (reg : Registry) (name : String) (p : TunnelProcess) :
    lookupProc (insertProc reg name p) name = some p := by
  unfold insertProc
  by_cases hany : List.any reg (fun e => e.1 == name) = true
  · rw [if_pos hany]
    have hex : ∃ q, lookupProc reg name = some q := by
      obtain ⟨e, hmem, hpred⟩ := List.any_eq_true.mp hany
      unfold lookupProc
      cases hfind : List.find? (fun e => e.1 == name) reg with
      | none =>
        have := List.find?_eq_none.mp hfind e hmem
        exact absurd hpred this
      | some q => exact ⟨q.2, by simp⟩
    obtain ⟨q, hq⟩ := hex
    exact lookupProc_setProc reg name q p hq
  · rw [if_neg hany]
    unfold lookupProc
    rw [List.find?_append]
    have hnone : List.find? (fun e => e.1 == name) reg = none := by
      rw [List.find?_eq_none]
      intro x hx hpx
      exact hany (List.any_eq_true.mpr ⟨x, hx, hpx⟩)
    rw [hnone]
    simp [List.find?]

theorem countP_key_setProc (reg : Registry) (name : String) (p : TunnelProcess) :
    (setProc reg name p).countP (fun e => e.1 == name)
      = reg.countP (fun e => e.1 == name) := by
  induction reg with
  | nil => rfl
  | cons e rest ih =>
    by_cases he : (e.1 == name) = true
    · rw [setProc_cons, if_pos he, List.countP_cons, List.countP_cons, ih]
    · rw [setProc_cons, if_neg he, List.countP_cons, List.countP_cons, ih]

theorem countP_beq_le_one_of_nodup (l : List String) (a : String)
    (h : l.Nodup) : l.countP (fun x => x == a) ≤ 1 := by
  induction l with
  | nil => simp
  | cons x l ih =>
    rw [List.countP_cons]
    rcases List.nodup_cons.mp h with ⟨hx, hl⟩
    by_cases hxa : (x == a) = true
    · have hxa' : x = a := by simpa using hxa
      subst hxa'
      have h0 : l.countP (fun y => y == x) = 0 := by
        rw [List.countP_eq_zero]
        intro y hy hyx
        exact hx (by simpa using (beq_iff_eq.mp hyx ▸ hy))
      rw [h0]
      simp
    · rw [Bool.not_eq_true] at hxa
      rw [hxa]
      simpa using ih hl

theorem countKey_insertProc (reg : Registry) (name : String) (p : TunnelProcess)
    (hnd : (reg.map Prod.fst).Nodup) :
    (insertProc reg name p).countP (fun e => e.1 == name) = 1 := by
  unfold insertProc
  by_cases hany : List.any reg (fun e => e.1 == name) = true
  · rw [if_pos hany, countP_key_setProc]
    have heq : reg.countP (fun e => e.1 == name)
        = (reg.map Prod.fst).countP (fun k => k == name) := by
      rw [List.countP_map]
      rfl
    have hle : reg.countP (fun e => e.1 == name) ≤ 1 := by
      rw [heq]
      exact countP_beq_le_one_of_nodup _ _ hnd
    have hpos : 0 < reg.countP (fun e => e.1 == name) :=
      List.countP_pos_iff.mpr (List.any_eq_true.mp hany)
    omega
  · rw [if_neg hany, List.countP_append]
    have h0 : reg.countP (fun e => e.1 == name) = 0 := by
      rw [List.countP_eq_zero]
      intro x hx hpx
      exact hany (List.any_eq_true.mpr ⟨x, hx, hpx⟩)
    rw [h0]
    simp [List.countP_cons]

theorem startTunnelSpawn_ok (reg : Registry) (configDir tunnelName : String)
    (config : Option TunnelConfigFile) (b : StartBehavior) (now : Nat)
    (p : TunnelProcess) (reg' : Registry) (spawned : List Nat)
    (h : TunnelManager.startTunnelSpawn reg configDir tunnelName config b now
        = (Except.ok p, reg', spawned)) :
    p.hasHandle = true ∧ p.alive = true ∧ p.pid = b.pid ∧
    reg' = insertProc reg tunnelName p ∧ spawned = [b.pid] := by
  unfold TunnelManager.startTunnelSpawn at h
  split_ifs at h
  · simp at h
  · simp at h
  · simp only [Prod.mk.injEq, Except.ok.injEq] at h
    obtain ⟨hp, hr, hs⟩ := h
    subst hp
    exact ⟨rfl, rfl, rfl, hr.symm, hs.symm⟩

/-! ## Helper lemmas: id assignment -/

theorem newIngressRule_id_spec (cfg : TunnelConfigData) (h p s : String)
    (hr : maxNumId cfg.ingress + 1 ≤ int64Max) :
    (newIngressRule cfg h p s).id ≠ "" ∧
    goAtoi (newIngressRule cfg h p s).id = some (maxNumId cfg.ingress + 1) := by
  have hm0 := maxNumId_nonneg cfg.ingress
  have hwrap : wrap64 (maxNumId cfg.ingress + 1) = maxNumId cfg.ingress + 1 :=
    wrap64_of_range _ (by unfold int64Min; omega) hr
  constructor
  · exact goItoa_ne_empty _
  · show goAtoi (goItoa (wrap64 (maxNumId cfg.ingress + 1))) = _
    rw [hwrap]
    exact goAtoi_goItoa _ (by omega) hr

theorem idContrib_newIngressRule (cfg : TunnelConfigData) (h p s : String)
    (hr : maxNumId cfg.ingress + 1 ≤ int64Max) :
    idContrib (newIngressRule cfg h p s) = maxNumId cfg.ingress + 1 := by
  obtain ⟨h1, h2⟩ := newIngressRule_id_spec cfg h p s hr
  have hm0 := maxNumId_nonneg cfg.ingress
  unfold idContrib
  rw [if_pos h1, h2]
  simp only [max_def]
  split_ifs <;> omega

theorem maxNumId_addIngress (cfg : TunnelConfigData) (h p s : String)
    (cfg' : TunnelConfigData)
    (hok : addIngress cfg h p s = Except.ok cfg')
    (hr : maxNumId cfg.ingress + 1 ≤ int64Max) :
    maxNumId cfg'.ingress = maxNumId cfg.ingress + 1 := by
  have hcontrib := idContrib_newIngressRule cfg h (normPath p) (normService s) hr
  have hm0 := maxNumId_nonneg cfg.ingress
  rw [addIngress_ok_iff] at hok
  obtain ⟨-, rfl⟩ := hok
  cases hidx : cfg.ingress.findIdx? (fun r => r.hostname == "") with
  | some i =>
    simp only [hidx]
    rw [maxNumId_append, maxNumId_cons, hcontrib]
    have hsplit : maxNumId cfg.ingress
        = max (maxNumId (cfg.ingress.take i)) (maxNumId (cfg.ingress.drop i)) := by
      conv_lhs => rw [← List.take_append_drop i cfg.ingress]
      exact maxNumId_append _ _
    have hT : maxNumId (cfg.ingress.take i) ≤ maxNumId cfg.ingress := by
      rw [hsplit]
      exact le_max_left _ _
    have hD : maxNumId (cfg.ingress.drop i) ≤ maxNumId cfg.ingress := by
      rw [hsplit]
      exact le_max_right _ _
    simp only [max_def]
    split_ifs <;> omega
  | none =>
    simp only [hidx]
    have hsingle : maxNumId [newIngressRule cfg h (normPath p) (normService s)]
        = maxNumId cfg.ingress + 1 := by
      have h1 : maxNumId [newIngressRule cfg h (normPath p) (normService s)]
          = max (idContrib (newIngressRule cfg h (normPath p) (normService s)))
              (maxNumId []) := maxNumId_cons _ _
      have h2 : maxNumId ([] : List TunnelConfigIngress) = 0 := rfl
      rw [h1, h2, hcontrib]
      simp only [max_def]
      split_ifs <;> omega
    rw [maxNumId_append, hsingle]
    simp only [max_def]
    split_ifs <;> omega

theorem insertReqs_ids_spec :
    ∀ (reqs : List (String × String × String)) (cfg : TunnelConfigData),
      maxNumId cfg.ingress + (reqs.length : Int) ≤ int64Max →
      (∀ x ∈ (insertReqs cfg reqs).2, maxNumId cfg.ingress < x) ∧
      List.Chain' (fun a b => a < b) (insertReqs cfg reqs).2 := by
  intro reqs
  induction reqs with
  | nil =>
    intro cfg _
    constructor
    · intro x hx
      simp [insertReqs] at hx
    · simp [insertReqs]
  | cons req rest ih =>
    intro cfg hrange
    obtain ⟨h, p, s⟩ := req
    have hlencast : ((((h, p, s) :: rest).length : Int)) = (rest.length : Int) + 1 := by
      push_cast [List.length_cons]
      ring
    cases hok : addIngress cfg h p s with
    | error e =>
      have hins : insertReqs cfg ((h, p, s) :: rest) = insertReqs cfg rest := by
        simp [insertReqs, hok]
      rw [hins]
      exact ih cfg (by omega)
    | ok cfg' =>
      have hr1 : maxNumId cfg.ingress + 1 ≤ int64Max := by
        have hl0 : (0 : Int) ≤ (rest.length : Int) := Int.natCast_nonneg _
        omega
      have hwrap : wrap64 (maxNumId cfg.ingress + 1) = maxNumId cfg.ingress + 1 :=
        wrap64_of_range _
          (by have := maxNumId_nonneg cfg.ingress; unfold int64Min; omega) hr1
      have hmax := maxNumId_addIngress cfg h p s cfg' hok hr1
      have hrange' : maxNumId cfg'.ingress + (rest.length : Int) ≤ int64Max := by
        rw [hmax]
        omega
      obtain ⟨hall, hchain⟩ := ih cfg' hrange'
      have hins : insertReqs cfg ((h, p, s) :: rest)
          = ((insertReqs cfg' rest).1,
             wrap64 (maxNumId cfg.ingress + 1) :: (insertReqs cfg' rest).2) := by
        simp [insertReqs, hok]
      rw [hins]
      constructor
      · intro x hx
        rcases List.mem_cons.mp hx with rfl | hx
        · rw [hwrap]
          omega
        · have := hall x hx
          rw [hmax] at this
          omega
      · rw [List.chain'_cons']
        refine ⟨?_, hchain⟩
        intro y hy
        have := hall y (List.mem_of_mem_head? hy)
        rw [hmax] at this
        rw [hwrap]
        omega

theorem addIngress_eq_of_normService (cfg : TunnelConfigData) (h p : String)
    {s s' : String} (hs : normService s = normService s') :
    addIngress cfg h p s = addIngress cfg h p s' := by
  unfold addIngress
  rw [hs]

theorem updateIngress_eq_of_normService (cfg : TunnelConfigData) (o n p : String)
    {s s' : String} (hs : normService s = normService s') :
    updateIngress cfg o n p s = updateIngress cfg o n p s' := by
  unfold updateIngress
  rw [hs]

/-! ## Claim theorems -/

/-- C7: the status resolver `GetTunnelStatus` returns `unknown` paired
with the non-nil underlying error when the connection fetch fails,
`inactive` when the fetched connection list is empty, `active` when at
least one connection has pending-reconnect false, `inactive` when
every connection is pending reconnect, and a fetch failure is never
reported as `inactive`. -/
theorem c7_status_resolution :
    (∀ e : String,
        CloudflareClient.getTunnelStatus (Except.error e)
          = (TunnelStatus.unknown, some e)) ∧
    (∀ t : CLITunnel, t.connections = [] →
        CloudflareClient.getTunnelStatus (Except.ok t)
          = (TunnelStatus.inactive, none)) ∧
    (∀ t : CLITunnel, (∃ c ∈ t.connections, c.isPendingReconnect = false) →
        CloudflareClient.getTunnelStatus (Except.ok t)
          = (TunnelStatus.active, none)) ∧
    (∀ t : CLITunnel, t.connections ≠ [] →
        (∀ c ∈ t.connections, c.isPendingReconnect = true) →
        CloudflareClient.getTunnelStatus (Except.ok t)
          = (TunnelStatus.inactive, none)) ∧
    (∀ (f : Except String CLITunnel) (e : String), f = Except.error e →
        (CloudflareClient.getTunnelStatus f).1 ≠ TunnelStatus.inactive) := by
  refine ⟨fun e => rfl, ?_, ?_, ?_, ?_⟩
  · intro t ht
    simp [CloudflareClient.getTunnelStatus, ht]
  · intro t hex
    obtain ⟨c, hc, hpend⟩ := hex
    have hne : ¬(t.connections.length = 0) := by
      intro h0
      rw [List.length_eq_zero] at h0
      rw [h0] at hc
      cases hc
    have hany : t.connections.any (fun c => !c.isPendingReconnect) = true :=
      List.any_eq_true.mpr ⟨c, hc, by simp [hpend]⟩
    simp [CloudflareClient.getTunnelStatus, hne, hany]
  · intro t hne hall
    have hlen : ¬(t.connections.length = 0) := by
      intro h0
      exact hne (List.length_eq_zero.mp h0)
    have hany : t.connections.any (fun c => !c.isPendingReconnect) = false := by
      rw [List.any_eq_false]
      intro c hc
      simp [hall c hc]
    simp [CloudflareClient.getTunnelStatus, hlen, hany]
  · intro f e hf
    subst hf
    simp [CloudflareClient.getTunnelStatus]

/-- Witness for C7 at concrete inputs: a failed fetch, an empty
connection list, one live connection, and one pending-reconnect
connection. -/
theorem c7_witness :
    CloudflareClient.getTunnelStatus (Except.error "boom")
      = (TunnelStatus.unknown, some "boom") ∧
    CloudflareClient.getTunnelStatus (Except.ok ⟨"tid", "t1", 0, []⟩)
      = (TunnelStatus.inactive, none) ∧
    CloudflareClient.getTunnelStatus
        (Except.ok ⟨"tid", "t1", 0, [⟨"dfw01", "c1", false, "198.51.100.1", 5⟩]⟩)
      = (TunnelStatus.active, none) ∧
    CloudflareClient.getTunnelStatus
        (Except.ok ⟨"tid", "t1", 0, [⟨"dfw01", "c1", true, "198.51.100.1", 5⟩]⟩)
      = (TunnelStatus.inactive, none) :=
  ⟨c7_status_resolution.1 "boom",
   c7_status_resolution.2.1 _ rfl,
   c7_status_resolution.2.2.1 _
     ⟨⟨"dfw01", "c1", false, "198.51.100.1", 5⟩, by simp, rfl⟩,
   c7_status_resolution.2.2.2.1 _ (by simp) (by decide)⟩

/-- C10: the supervisor's `GetTunnelStatus` returns `inactive` with no
error both when the registry has no entry for the name and when the
entry's underlying process is no longer running. -/
theorem c10_supervisor_status :
    (∀ (reg : Registry) (name : String),
        lookupProc reg name = none →
        (TunnelManager.getTunnelStatus reg name).1
          = (TunnelStatus.inactive, none)) ∧
    (∀ (reg : Registry) (name : String) (p : TunnelProcess),
        lookupProc reg name = some p → p.isRunning = false →
        (TunnelManager.getTunnelStatus reg name).1
          = (TunnelStatus.inactive, none)) := by
  constructor
  · intro reg name hl
    simp [TunnelManager.getTunnelStatus, hl]
  · intro reg name p hl hrun
    simp [TunnelManager.getTunnelStatus, hl, hrun]

/-- Witness for C10: an empty registry and a registry holding a dead
process. -/
theorem c10_witness :
    (TunnelManager.getTunnelStatus [] "t1").1 = (TunnelStatus.inactive, none) ∧
    (TunnelManager.getTunnelStatus
        [("t1", ⟨42, "t1", "t1", ["cloudflared", "tunnel", "run", "t1"], 0,
                 TunnelStatus.active, none, true, false⟩)] "t1").1
      = (TunnelStatus.inactive, none) :=
  ⟨c10_supervisor_status.1 [] "t1" rfl,
   c10_supervisor_status.2
     [("t1", ⟨42, "t1", "t1", ["cloudflared", "tunnel", "run", "t1"], 0,
              TunnelStatus.active, none, true, false⟩)] "t1"
     ⟨42, "t1", "t1", ["cloudflared", "tunnel", "run", "t1"], 0,
      TunnelStatus.active, none, true, false⟩ (by decide) rfl⟩

/-- C8: when the ingress push inside `AddPublicHostname` succeeds, a
subsequent failure of the tunnel-info lookup or of the CNAME creation
does not fail the operation — the call still returns success, the
pushed ingress edit stays pushed (no rollback), and the DNS failure is
only emitted as a warning. -/
theorem c8_partial_failure :
    ∀ (env : RemoteEnv) (hostname path service : String)
      (cfg cfg' : TunnelConfigData),
      env.fetchResult = Except.ok cfg →
      addIngress cfg hostname path service = Except.ok cfg' →
      env.pushSucceeds = true →
      (CloudflareClient.addPublicHostname env hostname path service).1
        = Except.ok () ∧
      (CloudflareClient.addPublicHostname env hostname path service).2.1
        = [cfg'] ∧
      (((∃ e, env.tunnelInfoResult = Except.error e) ∨
          env.dnsCreateSucceeds = false) →
        (CloudflareClient.addPublicHostname env hostname path service).2.2 ≠ []) := by
  intro env h p s cfg cfg' hf ha hp
  simp only [CloudflareClient.addPublicHostname, hf, ha, hp, Bool.not_true,
    Bool.false_eq_true, if_false]
  cases hti : env.tunnelInfoResult with
  | error e =>
    exact ⟨rfl, rfl, fun _ => by simp⟩
  | ok nm =>
    by_cases hd : env.dnsCreateSucceeds = true
    · rw [if_pos hd]
      refine ⟨rfl, rfl, ?_⟩
      intro hcase
      rcases hcase with ⟨e, he⟩ | hfalse
      · cases he
      · rw [hd] at hfalse
        cases hfalse
    · rw [if_neg hd]
      exact ⟨rfl, rfl, fun _ => by simp⟩

/-- Witness for C8: the push succeeds and the tunnel-info lookup
fails; the call still succeeds, the edited configuration is the one
and only push, and a warning is emitted. -/
theorem c8_witness :
    (CloudflareClient.addPublicHostname
        ⟨Except.ok ⟨[⟨"", "", "", "http_status:404", []⟩], ⟨false⟩⟩, true,
         Except.error "info fail", true⟩
        "api.example.com" "" "http://localhost:3000").1 = Except.ok () ∧
    (CloudflareClient.addPublicHostname
        ⟨Except.ok ⟨[⟨"", "", "", "http_status:404", []⟩], ⟨false⟩⟩, true,
         Except.error "info fail", true⟩
        "api.example.com" "" "http://localhost:3000").2.1
      = [⟨[⟨"1", "api.example.com", "", "http://localhost:3000", []⟩,
           ⟨"", "", "", "http_status:404", []⟩], ⟨false⟩⟩] ∧
    (CloudflareClient.addPublicHostname
        ⟨Except.ok ⟨[⟨"", "", "", "http_status:404", []⟩], ⟨false⟩⟩, true,
         Except.error "info fail", true⟩
        "api.example.com" "" "http://localhost:3000").2.2 ≠ [] := by
  have h := c8_partial_failure
      ⟨Except.ok ⟨[⟨"", "", "", "http_status:404", []⟩], ⟨false⟩⟩, true,
       Except.error "info fail", true⟩
      "api.example.com" "" "http://localhost:3000"
      ⟨[⟨"", "", "", "http_status:404", []⟩], ⟨false⟩⟩
      ⟨[⟨"1", "api.example.com", "", "http://localhost:3000", []⟩,
        ⟨"", "", "", "http_status:404", []⟩], ⟨false⟩⟩
      rfl (by decide) rfl
  exact ⟨h.1, h.2.1, h.2.2 (Or.inl ⟨"info fail", rfl⟩)⟩

/-- C4: after a successful `StartTunnel` and with no intervening stop,
a second `StartTunnel` for the same name returns the already-running
conflict error, spawns no second process (registry unchanged, empty
spawn list), and the registry contains exactly one entry for the
name. -/
theorem c4_second_start_conflicts :
    ∀ (reg : Registry) (configDir tunnelName : String)
      (config : Option TunnelConfigFile) (b : StartBehavior) (now : Nat)
      (p : TunnelProcess) (reg' : Registry) (spawned : List Nat)
      (config2 : Option TunnelConfigFile) (b2 : StartBehavior) (now2 : Nat),
      (reg.map Prod.fst).Nodup →
      TunnelManager.startTunnel reg configDir tunnelName config b now
        = (Except.ok p, reg', spawned) →
      TunnelManager.startTunnel reg' configDir tunnelName config2 b2 now2
        = (Except.error ("tunnel " ++ tunnelName ++ " is already running with PID "
            ++ toString p.pid), reg', []) ∧
      reg'.countP (fun e => e.1 == tunnelName) = 1 := by
  intro reg configDir tunnelName config b now p reg' spawned config2 b2 now2 hnd h1
  have hspawn : TunnelManager.startTunnelSpawn reg configDir tunnelName config b now
      = (Except.ok p, reg', spawned) := by
    unfold TunnelManager.startTunnel at h1
    split at h1
    · split_ifs at h1
      · simp at h1
      · exact h1
    · exact h1
  obtain ⟨hhandle, halive, hpid, hreg, hsp⟩ :=
    startTunnelSpawn_ok reg configDir tunnelName config b now p reg' spawned hspawn
  subst hreg
  have hlook : lookupProc (insertProc reg tunnelName p) tunnelName = some p :=
    lookupProc_insertProc reg tunnelName p
  have hrun : p.isRunning = true := by
    unfold TunnelProcess.isRunning
    rw [hhandle, halive]
    rfl
  constructor
  · simp [TunnelManager.startTunnel, hlook, hrun]
  · exact countKey_insertProc reg tunnelName p hnd

/-- Witness for C4: a fresh registry, one successful start, then a
second start of the same tunnel name. -/
theorem c4_witness :
    TunnelManager.startTunnel
        [("t1", ⟨101, "t1", "t1", ["cloudflared", "tunnel", "run", "t1"], 0,
                 TunnelStatus.active, none, true, true⟩)]
        "cfgdir" "t1" none ⟨false, false, 202⟩ 7
      = (Except.error ("tunnel " ++ "t1" ++ " is already running with PID "
          ++ toString (⟨101, "t1", "t1", ["cloudflared", "tunnel", "run", "t1"], 0,
                 TunnelStatus.active, none, true, true⟩ : TunnelProcess).pid),
         [("t1", ⟨101, "t1", "t1", ["cloudflared", "tunnel", "run", "t1"], 0,
                 TunnelStatus.active, none, true, true⟩)], []) ∧
    List.countP (fun e => e.1 == "t1")
        [("t1", (⟨101, "t1", "t1", ["cloudflared", "tunnel", "run", "t1"], 0,
                 TunnelStatus.active, none, true, true⟩ : TunnelProcess))] = 1 :=
  c4_second_start_conflicts [] "cfgdir" "t1" none ⟨false, false, 101⟩ 0
    ⟨101, "t1", "t1", ["cloudflared", "tunnel", "run", "t1"], 0,
     TunnelStatus.active, none, true, true⟩
    [("t1", ⟨101, "t1", "t1", ["cloudflared", "tunnel", "run", "t1"], 0,
             TunnelStatus.active, none, true, true⟩)]
    [101] none ⟨false, false, 202⟩ 7 (by simp) (by decide)

/-- C5: a successful insert places the new rule immediately before the
first empty-hostname rule (the catch-all); when no empty-hostname rule
exists the new rule is appended at the end; and the insert fails only
on a duplicate — the absence of a catch-all never causes failure. -/
theorem c5_insert_position :
    ∀ (cfg : TunnelConfigData) (h p s : String) (cfg' : TunnelConfigData),
      (addIngress cfg h p s = Except.ok cfg' →
        ((∃ i, cfg.ingress.findIdx? (fun r => r.hostname == "") = some i ∧
            cfg'.ingress = cfg.ingress.take i ++
              newIngressRule cfg h (normPath p) (normService s) ::
                cfg.ingress.drop i) ∨
         (cfg.ingress.findIdx? (fun r => r.hostname == "") = none ∧
            cfg'.ingress = cfg.ingress ++
              [newIngressRule cfg h (normPath p) (normService s)]))) ∧
      ((addIngress cfg h p s).isOk
        = !cfg.ingress.any (fun r => r.hostname == h && r.path == normPath p)) := by
  intro cfg h p s cfg'
  constructor
  · intro hok
    rw [addIngress_ok_iff] at hok
    obtain ⟨-, rfl⟩ := hok
    cases hidx : cfg.ingress.findIdx? (fun r => r.hostname == "") with
    | some i =>
      left
      exact ⟨i, rfl, rfl⟩
    | none =>
      right
      exact ⟨rfl, rfl⟩
  · by_cases hany : cfg.ingress.any
        (fun r => r.hostname == h && r.path == normPath p) = true
    · simp [addIngress, hany, Except.isOk, Except.toBool]
    · rw [Bool.not_eq_true] at hany
      simp only [addIngress, hany, Bool.false_eq_true, if_false]
      cases hidx : cfg.ingress.findIdx? (fun r => r.hostname == "") <;>
        simp [Except.isOk, Except.toBool]

/-- Witness for C5: inserting into a config holding only the catch-all
places the new rule at index 0, immediately before it. -/
theorem c5_witness :
    ∃ i, (⟨[⟨"", "", "", "http_status:404", []⟩], ⟨false⟩⟩
        : TunnelConfigData).ingress.findIdx? (fun r => r.hostname == "") = some i ∧
      (⟨[⟨"1", "api.example.com", "", "svc", []⟩,
         ⟨"", "", "", "http_status:404", []⟩], ⟨false⟩⟩
        : TunnelConfigData).ingress
        = (⟨[⟨"", "", "", "http_status:404", []⟩], ⟨false⟩⟩
            : TunnelConfigData).ingress.take i ++
          newIngressRule ⟨[⟨"", "", "", "http_status:404", []⟩], ⟨false⟩⟩
            "api.example.com" (normPath "") (normService "svc") ::
          (⟨[⟨"", "", "", "http_status:404", []⟩], ⟨false⟩⟩
            : TunnelConfigData).ingress.drop i := by
  have h := (c5_insert_position ⟨[⟨"", "", "", "http_status:404", []⟩], ⟨false⟩⟩
      "api.example.com" "" "svc"
      ⟨[⟨"1", "api.example.com", "", "svc", []⟩,
        ⟨"", "", "", "http_status:404", []⟩], ⟨false⟩⟩).1 (by decide)
  rcases h with h | h
  · exact h
  · exact absurd h.1 (by decide)

/-- C9: an empty service string never causes a rejection — both the
insert and the update behave exactly as if the default service
`http://localhost:8080` had been passed, and the stored rule carries
that default as its target. -/
theorem c9_empty_service_defaults :
    (∀ (cfg : TunnelConfigData) (h p : String),
        addIngress cfg h p "" = addIngress cfg h p defaultService) ∧
    (∀ (cfg : TunnelConfigData) (h p : String) (cfg' : TunnelConfigData),
        addIngress cfg h p "" = Except.ok cfg' →
        ∃ l1 l2, cfg.ingress = l1 ++ l2 ∧
          cfg'.ingress = l1 ++
            newIngressRule cfg h (normPath p) defaultService :: l2 ∧
          (newIngressRule cfg h (normPath p) defaultService).service
            = defaultService) ∧
    (∀ (cfg : TunnelConfigData) (o n p : String),
        updateIngress cfg o n p "" = updateIngress cfg o n p defaultService) ∧
    (∀ (cfg : TunnelConfigData) (o n p : String) (cfg' : TunnelConfigData),
        updateIngress cfg o n p "" = Except.ok cfg' →
        ∃ l1 r l2, cfg.ingress = l1 ++ r :: l2 ∧
          cfg'.ingress = l1 ++
            { r with hostname := n, service := defaultService,
                     path := if normPath p ≠ "*" then normPath p else "" } :: l2) := by
  refine ⟨?_, ?_, ?_, ?_⟩
  · intro cfg h p
    exact addIngress_eq_of_normService cfg h p (by decide)
  · intro cfg h p cfg' hok
    rw [addIngress_ok_iff] at hok
    obtain ⟨-, rfl⟩ := hok
    cases hidx : cfg.ingress.findIdx? (fun r => r.hostname == "") with
    | some i =>
      exact ⟨cfg.ingress.take i, cfg.ingress.drop i,
        (List.take_append_drop i cfg.ingress).symm, rfl, rfl⟩
    | none =>
      exact ⟨cfg.ingress, [], by simp, rfl, rfl⟩
  · intro cfg o n p
    exact updateIngress_eq_of_normService cfg o n p (by decide)
  · intro cfg o n p cfg' hok
    rw [updateIngress_ok_iff] at hok
    obtain ⟨l, hu, rfl⟩ := hok
    obtain ⟨l1, r, l2, he, hcond, hl⟩ := updateFirst_eq_some _ _ _ _ hu
    refine ⟨l1, r, l2, he, ?_⟩
    show l = l1 ++ _ :: l2
    rw [hl, show normService "" = defaultService from rfl]

/-- Witness for C9: an insert and the matching default-service insert
on a concrete config, with the stored rule carrying the default. -/
theorem c9_witness :
    (addIngress ⟨[⟨"", "", "", "http_status:404", []⟩], ⟨false⟩⟩
        "api.example.com" "/x" ""
      = addIngress ⟨[⟨"", "", "", "http_status:404", []⟩], ⟨false⟩⟩
          "api.example.com" "/x" defaultService) ∧
    (∃ l1 l2,
      (⟨[⟨"", "", "", "http_status:404", []⟩], ⟨false⟩⟩
          : TunnelConfigData).ingress = l1 ++ l2 ∧
      (⟨[⟨"1", "api.example.com", "/x", "http://localhost:8080", []⟩,
         ⟨"", "", "", "http_status:404", []⟩], ⟨false⟩⟩
          : TunnelConfigData).ingress
        = l1 ++ newIngressRule ⟨[⟨"", "", "", "http_status:404", []⟩], ⟨false⟩⟩
            "api.example.com" (normPath "/x") defaultService :: l2 ∧
      (newIngressRule ⟨[⟨"", "", "", "http_status:404", []⟩], ⟨false⟩⟩
          "api.example.com" (normPath "/x") defaultService).service
        = defaultService) :=
  ⟨c9_empty_service_defaults.1 _ "api.example.com" "/x",
   c9_empty_service_defaults.2.1 _ "api.example.com" "/x" _ (by decide)⟩

theorem addIngress_error_of_any (cfg : TunnelConfigData) (h p s : String)
    (hany : cfg.ingress.any
        (fun r => r.hostname == h && r.path == normPath p) = true) :
    addIngress cfg h p s
      = Except.error ("hostname " ++ h ++ " with path " ++ normPath p
          ++ " already exists") := by
  simp only [addIngress, hany, if_true]

/-- C1 counterexample: on a valid two-rule config, a successful
`Remove` with an empty hostname deletes the catch-all itself, a
successful `Update` with an empty original hostname renames the
catch-all away, and a successful `Insert` with an empty hostname
creates a second empty-hostname rule that is not last — so the claim
that every successful Insert/Update/Remove preserves the invariant is
false as stated. -/
theorem c1_counterexample :
    validIngress [⟨"1", "app.example.com", "", "http://localhost:3000", []⟩,
                  ⟨"", "", "", "http_status:404", []⟩] = true ∧
    removeIngress ⟨[⟨"1", "app.example.com", "", "http://localhost:3000", []⟩,
                    ⟨"", "", "", "http_status:404", []⟩], ⟨false⟩⟩ "" ""
      = Except.ok ⟨[⟨"1", "app.example.com", "", "http://localhost:3000", []⟩],
                   ⟨false⟩⟩ ∧
    validIngress [⟨"1", "app.example.com", "", "http://localhost:3000", []⟩]
      = false ∧
    updateIngress ⟨[⟨"1", "app.example.com", "", "http://localhost:3000", []⟩,
                    ⟨"", "", "", "http_status:404", []⟩], ⟨false⟩⟩
        "" "x.example.com" "" ""
      = Except.ok ⟨[⟨"1", "app.example.com", "", "http://localhost:3000", []⟩,
                    ⟨"", "x.example.com", "", "http://localhost:8080", []⟩],
                   ⟨false⟩⟩ ∧
    validIngress [⟨"1", "app.example.com", "", "http://localhost:3000", []⟩,
                  ⟨"", "x.example.com", "", "http://localhost:8080", []⟩]
      = false ∧
    addIngress ⟨[⟨"1", "app.example.com", "", "http://localhost:3000", []⟩,
                 ⟨"", "", "", "http_status:404", []⟩], ⟨false⟩⟩ "" "" "svc"
      = Except.ok ⟨[⟨"1", "app.example.com", "", "http://localhost:3000", []⟩,
                    ⟨"2", "", "", "svc", []⟩,
                    ⟨"", "", "", "http_status:404", []⟩], ⟨false⟩⟩ ∧
    validIngress [⟨"1", "app.example.com", "", "http://localhost:3000", []⟩,
                  ⟨"2", "", "", "svc", []⟩,
                  ⟨"", "", "", "http_status:404", []⟩] = false := by
  decide

/-- C1 (amended): every successful Insert, Update, or Remove whose
hostname arguments are non-empty (for Update: both the original and
the new hostname) preserves the invariant that exactly one rule has an
empty hostname and it is the last element. With an empty hostname
argument the operations can delete, rename, or duplicate the
catch-all. -/
theorem c1_invariant_preserved :
    (∀ (cfg : TunnelConfigData) (h p s : String) (cfg' : TunnelConfigData),
        h ≠ "" → validIngress cfg.ingress = true →
        addIngress cfg h p s = Except.ok cfg' →
        validIngress cfg'.ingress = true) ∧
    (∀ (cfg : TunnelConfigData) (o n p s : String) (cfg' : TunnelConfigData),
        o ≠ "" → n ≠ "" → validIngress cfg.ingress = true →
        updateIngress cfg o n p s = Except.ok cfg' →
        validIngress cfg'.ingress = true) ∧
    (∀ (cfg : TunnelConfigData) (h p : String) (cfg' : TunnelConfigData),
        h ≠ "" → validIngress cfg.ingress = true →
        removeIngress cfg h p = Except.ok cfg' →
        validIngress cfg'.ingress = true) := by
  refine ⟨?_, ?_, ?_⟩
  · intro cfg h p s cfg' hh hv hok
    rw [validIngress_iff] at hv
    obtain ⟨f, c, hfc, hc, hf⟩ := hv
    rw [addIngress_ok_iff] at hok
    obtain ⟨-, rfl⟩ := hok
    have hfind : cfg.ingress.findIdx? (fun r => r.hostname == "")
        = some f.length := by
      rw [hfc]
      apply findIdx?_append_last
      · intro x hx
        simpa using hf x hx
      · simpa using hc
    simp only [hfind]
    show validIngress (cfg.ingress.take f.length ++
      newIngressRule cfg h (normPath p) (normService s) ::
        cfg.ingress.drop f.length) = true
    rw [hfc, List.take_left, List.drop_left]
    rw [validIngress_iff]
    refine ⟨f ++ [newIngressRule cfg h (normPath p) (normService s)], c,
      by simp, hc, ?_⟩
    intro r hr
    rcases List.mem_append.mp hr with hr | hr
    · exact hf r hr
    · rw [List.mem_singleton] at hr
      subst hr
      exact hh
  · intro cfg o n p s cfg' ho hn hv hok
    rw [validIngress_iff] at hv
    obtain ⟨f, c, hfc, hc, hf⟩ := hv
    rw [updateIngress_ok_iff] at hok
    obtain ⟨l, hu, rfl⟩ := hok
    rw [hfc, updateFirst_append_last f c o _ ho hc] at hu
    rw [Option.map_eq_some'] at hu
    obtain ⟨f2, hf2, rfl⟩ := hu
    show validIngress (f2 ++ [c]) = true
    rw [validIngress_iff]
    refine ⟨f2, c, rfl, hc, ?_⟩
    exact updateFirst_some_all o _ (fun x => hn) f f2 hf hf2
  · intro cfg h p cfg' hh hv hok
    rw [validIngress_iff] at hv
    obtain ⟨f, c, hfc, hc, hf⟩ := hv
    rw [removeIngress_ok_iff] at hok
    obtain ⟨l, hu, rfl⟩ := hok
    rw [hfc, removeFirst_append_last f c h (normPath p) hh hc] at hu
    rw [Option.map_eq_some'] at hu
    obtain ⟨f2, hf2, rfl⟩ := hu
    show validIngress (f2 ++ [c]) = true
    rw [validIngress_iff]
    refine ⟨f2, c, rfl, hc, ?_⟩
    intro r hr
    exact hf r (removeFirst_some_mem h (normPath p) f f2 hf2 r hr)

/-- Witness for the amended C1: a concrete insert, update, and remove
with non-empty hostnames, each preserving the invariant. -/
theorem c1_witness :
    validIngress (⟨[⟨"1", "b.example.com", "", "svc", []⟩,
                    ⟨"", "", "", "http_status:404", []⟩], ⟨false⟩⟩
        : TunnelConfigData).ingress = true ∧
    validIngress (⟨[⟨"1", "c.example.com", "/y", "svc2", []⟩,
                    ⟨"", "", "", "http_status:404", []⟩], ⟨false⟩⟩
        : TunnelConfigData).ingress = true ∧
    validIngress (⟨[⟨"", "", "", "http_status:404", []⟩], ⟨false⟩⟩
        : TunnelConfigData).ingress = true :=
  ⟨c1_invariant_preserved.1 ⟨[⟨"", "", "", "http_status:404", []⟩], ⟨false⟩⟩
      "b.example.com" "" "svc" _ (by decide) (by decide) (by decide),
   c1_invariant_preserved.2.1
      ⟨[⟨"1", "b.example.com", "", "svc", []⟩,
        ⟨"", "", "", "http_status:404", []⟩], ⟨false⟩⟩
      "b.example.com" "c.example.com" "/y" "svc2" _
      (by decide) (by decide) (by decide) (by decide),
   c1_invariant_preserved.2.2
      ⟨[⟨"1", "b.example.com", "", "svc", []⟩,
        ⟨"", "", "", "http_status:404", []⟩], ⟨false⟩⟩
      "b.example.com" "" _ (by decide) (by decide) (by decide)⟩

/-- C2 counterexample: inserting the same hostname with the wildcard
path twice does NOT fail — the stored form of the wildcard path is the
empty string while the duplicate probe is `*`, so the check never
fires and the second call succeeds, duplicating the rule. -/
theorem c2_counterexample :
    addIngress ⟨[⟨"", "", "", "http_status:404", []⟩], ⟨false⟩⟩
        "api.example.com" "" "http://localhost:3000"
      = Except.ok ⟨[⟨"1", "api.example.com", "", "http://localhost:3000", []⟩,
                    ⟨"", "", "", "http_status:404", []⟩], ⟨false⟩⟩ ∧
    (addIngress ⟨[⟨"1", "api.example.com", "", "http://localhost:3000", []⟩,
                  ⟨"", "", "", "http_status:404", []⟩], ⟨false⟩⟩
        "api.example.com" "" "http://localhost:3000").isOk = true ∧
    normPath "" = "*" := by
  decide

/-- C2 (amended): for a path that does not normalize to the wildcard
(neither empty nor `*`), inserting the same (hostname, path) pair a
second time fails with the duplicate conflict error, and the config is
untouched because the edit returns before modifying anything. For
wildcard paths the duplicate check does not fire (the stored path is
empty while the probe is `*`), so the second insert succeeds. -/
theorem c2_duplicate_insert_conflicts :
    ∀ (cfg : TunnelConfigData) (h p s s' : String) (cfg' : TunnelConfigData),
      p ≠ "" → p ≠ "*" →
      addIngress cfg h p s = Except.ok cfg' →
      addIngress cfg' h p s'
        = Except.error ("hostname " ++ h ++ " with path " ++ p
            ++ " already exists") := by
  intro cfg h p s s' cfg' hp1 hp2 hok
  have hnp : normPath p = p := by simp [normPath, hp1]
  rw [addIngress_ok_iff] at hok
  obtain ⟨-, rfl⟩ := hok
  have hmem : newIngressRule cfg h (normPath p) (normService s) ∈
      (match cfg.ingress.findIdx? (fun r => r.hostname == "") with
       | some i => cfg.ingress.take i ++
           newIngressRule cfg h (normPath p) (normService s) :: cfg.ingress.drop i
       | none => cfg.ingress ++
           [newIngressRule cfg h (normPath p) (normService s)]) := by
    cases cfg.ingress.findIdx? (fun r => r.hostname == "") <;> simp
  have hpath : (newIngressRule cfg h (normPath p) (normService s)).path = p := by
    show (if normPath p ≠ "*" then normPath p else "") = p
    rw [hnp, if_pos hp2]
  have hany : ((match cfg.ingress.findIdx? (fun r => r.hostname == "") with
       | some i => cfg.ingress.take i ++
           newIngressRule cfg h (normPath p) (normService s) :: cfg.ingress.drop i
       | none => cfg.ingress ++
           [newIngressRule cfg h (normPath p) (normService s)])
        : List TunnelConfigIngress).any
      (fun r => r.hostname == h && r.path == normPath p) = true := by
    apply List.any_eq_true.mpr
    refine ⟨newIngressRule cfg h (normPath p) (normService s), hmem, ?_⟩
    have hhost : (newIngressRule cfg h (normPath p) (normService s)).hostname
        = h := rfl
    show ((newIngressRule cfg h (normPath p) (normService s)).hostname == h
        && (newIngressRule cfg h (normPath p) (normService s)).path
            == normPath p) = true
    rw [hhost, hpath, hnp]
    simp
  have hfinal := addIngress_error_of_any
      { cfg with ingress := (match cfg.ingress.findIdx? (fun r => r.hostname == "") with
         | some i => cfg.ingress.take i ++
             newIngressRule cfg h (normPath p) (normService s) :: cfg.ingress.drop i
         | none => cfg.ingress ++
             [newIngressRule cfg h (normPath p) (normService s)]) }
      h p s' hany
  conv_rhs => rw [← hnp]
  exact hfinal

/-- Witness for the amended C2: a second insert of the same hostname
with the non-wildcard path `/api` fails with the conflict error. -/
theorem c2_witness :
    addIngress ⟨[⟨"1", "api.example.com", "/api", "svcA", []⟩,
                 ⟨"", "", "", "http_status:404", []⟩], ⟨false⟩⟩
        "api.example.com" "/api" "svcB"
      = Except.error ("hostname " ++ "api.example.com" ++ " with path " ++ "/api"
          ++ " already exists") :=
  c2_duplicate_insert_conflicts
    ⟨[⟨"", "", "", "http_status:404", []⟩], ⟨false⟩⟩
    "api.example.com" "/api" "svcA" "svcB"
    ⟨[⟨"1", "api.example.com", "/api", "svcA", []⟩,
      ⟨"", "", "", "http_status:404", []⟩], ⟨false⟩⟩
    (by decide) (by decide) (by decide)

/-- C3 counterexample: a registered process with a live handle that
ignores SIGTERM (never exits) and whose forced kill fails — the call
escalates to the kill, reports the kill failure, but the registry
entry's status stays `active`, NOT `inactive` as the claim asserts for
this outcome. -/
theorem c3_counterexample :
    (TunnelManager.stopTunnel
        [("t1", ⟨42, "t1", "t1", ["cloudflared", "tunnel", "run", "t1"], 0,
                 TunnelStatus.active, none, true, true⟩)]
        "t1" ⟨false, none, none, true⟩).1
      = Except.error "failed to kill process" ∧
    (TunnelManager.stopTunnel
        [("t1", ⟨42, "t1", "t1", ["cloudflared", "tunnel", "run", "t1"], 0,
                 TunnelStatus.active, none, true, true⟩)]
        "t1" ⟨false, none, none, true⟩).2.2
      = [ProcSignal.sigterm, ProcSignal.kill] ∧
    lookupProc (TunnelManager.stopTunnel
        [("t1", ⟨42, "t1", "t1", ["cloudflared", "tunnel", "run", "t1"], 0,
                 TunnelStatus.active, none, true, true⟩)]
        "t1" ⟨false, none, none, true⟩).2.1 "t1"
      = some ⟨42, "t1", "t1", ["cloudflared", "tunnel", "run", "t1"], 0,
              TunnelStatus.active, none, true, true⟩ := by
  decide

/-- C3 (amended): for a registered process with a handle, Stop sends
SIGTERM, waits up to the 10-second grace window, and escalates to a
forced kill on timeout; the entry's status is set to `inactive`
whenever the wait completes within the window (even when `Wait`
reported an error) or the forced kill succeeds; but when the forced
kill itself fails the call returns an error and the entry is left
unchanged — the status is NOT normalized to `inactive` — and likewise
a failed SIGTERM send returns the error early, with only the SIGTERM
attempted and the entry untouched. -/
theorem c3_stop_two_phase :
    ∀ (reg : Registry) (name : String) (p : TunnelProcess) (b : StopBehavior),
      lookupProc reg name = some p →
      p.hasHandle = true →
      (b.sigtermFails = false →
        ProcSignal.sigterm ∈ (TunnelManager.stopTunnel reg name b).2.2) ∧
      (b.sigtermFails = false → exitsWithinGrace b = false →
        ProcSignal.kill ∈ (TunnelManager.stopTunnel reg name b).2.2) ∧
      (b.sigtermFails = false →
        (exitsWithinGrace b = true ∨ b.killFails = false) →
        lookupProc (TunnelManager.stopTunnel reg name b).2.1 name
          = some { p with status := TunnelStatus.inactive }) ∧
      (b.sigtermFails = false → exitsWithinGrace b = false → b.killFails = true →
        (TunnelManager.stopTunnel reg name b).1
          = Except.error "failed to kill process" ∧
        lookupProc (TunnelManager.stopTunnel reg name b).2.1 name = some p) ∧
      (b.sigtermFails = true →
        (TunnelManager.stopTunnel reg name b).1
          = Except.error "failed to send SIGTERM" ∧
        lookupProc (TunnelManager.stopTunnel reg name b).2.1 name = some p ∧
        (TunnelManager.stopTunnel reg name b).2.2 = [ProcSignal.sigterm]) := by
  intro reg name p b hl hh
  have hstop : TunnelManager.stopTunnel reg name b
      = ((TunnelManager.stopProcess p b).1,
         setProc reg name (TunnelManager.stopProcess p b).2.1,
         (TunnelManager.stopProcess p b).2.2) := by
    simp only [TunnelManager.stopTunnel, hl]
  by_cases hsf : b.sigtermFails = true
  · have hsp : TunnelManager.stopProcess p b
        = (Except.error "failed to send SIGTERM", p, [ProcSignal.sigterm]) := by
      simp only [TunnelManager.stopProcess, hh, hsf, Bool.not_true,
        Bool.false_eq_true, if_false, if_true]
    rw [hstop, hsp]
    refine ⟨?_, ?_, ?_, ?_, ?_⟩
    · intro hfalse
      rw [hsf] at hfalse
      cases hfalse
    · intro hfalse _
      rw [hsf] at hfalse
      cases hfalse
    · intro hfalse _
      rw [hsf] at hfalse
      cases hfalse
    · intro hfalse _ _
      rw [hsf] at hfalse
      cases hfalse
    · intro _
      exact ⟨rfl, lookupProc_setProc reg name p p hl, rfl⟩
  · rw [Bool.not_eq_true] at hsf
    by_cases hex : exitsWithinGrace b = true
    · have hsp : TunnelManager.stopProcess p b
          = ((match b.waitError with
              | some e => Except.error e
              | none => Except.ok ()),
             { p with status := TunnelStatus.inactive }, [ProcSignal.sigterm]) := by
        simp only [TunnelManager.stopProcess, hh, hsf, hex, Bool.not_true,
          Bool.false_eq_true, if_false, if_true]
      rw [hstop, hsp]
      refine ⟨fun _ => by simp, ?_, ?_, ?_, ?_⟩
      · intro _ hfalse
        rw [hex] at hfalse
        cases hfalse
      · intro _ _
        exact lookupProc_setProc reg name p _ hl
      · intro _ hfalse
        rw [hex] at hfalse
        cases hfalse
      · intro hfalse
        rw [hsf] at hfalse
        cases hfalse
    · rw [Bool.not_eq_true] at hex
      by_cases hk : b.killFails = true
      · have hsp : TunnelManager.stopProcess p b
            = (Except.error "failed to kill process", p,
               [ProcSignal.sigterm, ProcSignal.kill]) := by
          simp only [TunnelManager.stopProcess, hh, hsf, hex, hk, Bool.not_true,
            Bool.false_eq_true, if_false, if_true]
        rw [hstop, hsp]
        refine ⟨fun _ => by simp, fun _ _ => by simp, ?_, ?_, ?_⟩
        · intro _ hcase
          rcases hcase with hcase | hcase
          · rw [hex] at hcase
            cases hcase
          · rw [hk] at hcase
            cases hcase
        · intro _ _ _
          exact ⟨rfl, lookupProc_setProc reg name p p hl⟩
        · intro hfalse
          rw [hsf] at hfalse
          cases hfalse
      · rw [Bool.not_eq_true] at hk
        have hsp : TunnelManager.stopProcess p b
            = (Except.ok (), { p with status := TunnelStatus.inactive },
               [ProcSignal.sigterm, ProcSignal.kill]) := by
          simp only [TunnelManager.stopProcess, hh, hsf, hex, hk, Bool.not_true,
            Bool.false_eq_true, if_false, if_true]
        rw [hstop, hsp]
        refine ⟨fun _ => by simp, fun _ _ => by simp, ?_, ?_, ?_⟩
        · intro _ _
          exact lookupProc_setProc reg name p _ hl
        · intro _ _ hfalse
          rw [hk] at hfalse
          cases hfalse
        · intro hfalse
          rw [hsf] at hfalse
          cases hfalse

/-- Witness for the amended C3: a process that exits 3 seconds after
SIGTERM (status becomes inactive), one that never exits but whose
forced kill succeeds (kill escalation, status inactive), and one whose
SIGTERM send fails (error returned, entry untouched, no kill
attempted). -/
theorem c3_witness :
    ProcSignal.sigterm ∈ (TunnelManager.stopTunnel
        [("t1", ⟨42, "t1", "t1", ["cloudflared", "tunnel", "run", "t1"], 0,
                 TunnelStatus.active, none, true, true⟩)]
        "t1" ⟨false, some 3, none, false⟩).2.2 ∧
    lookupProc (TunnelManager.stopTunnel
        [("t1", ⟨42, "t1", "t1", ["cloudflared", "tunnel", "run", "t1"], 0,
                 TunnelStatus.active, none, true, true⟩)]
        "t1" ⟨false, some 3, none, false⟩).2.1 "t1"
      = some ⟨42, "t1", "t1", ["cloudflared", "tunnel", "run", "t1"], 0,
              TunnelStatus.inactive, none, true, true⟩ ∧
    ProcSignal.kill ∈ (TunnelManager.stopTunnel
        [("t2", ⟨43, "t2", "t2", ["cloudflared", "tunnel", "run", "t2"], 0,
                 TunnelStatus.active, none, true, true⟩)]
        "t2" ⟨false, none, none, false⟩).2.2 ∧
    lookupProc (TunnelManager.stopTunnel
        [("t2", ⟨43, "t2", "t2", ["cloudflared", "tunnel", "run", "t2"], 0,
                 TunnelStatus.active, none, true, true⟩)]
        "t2" ⟨false, none, none, false⟩).2.1 "t2"
      = some ⟨43, "t2", "t2", ["cloudflared", "tunnel", "run", "t2"], 0,
              TunnelStatus.inactive, none, true, true⟩ ∧
    (TunnelManager.stopTunnel
        [("t3", ⟨44, "t3", "t3", ["cloudflared", "tunnel", "run", "t3"], 0,
                 TunnelStatus.active, none, true, true⟩)]
        "t3" ⟨true, none, none, false⟩).1
      = Except.error "failed to send SIGTERM" ∧
    lookupProc (TunnelManager.stopTunnel
        [("t3", ⟨44, "t3", "t3", ["cloudflared", "tunnel", "run", "t3"], 0,
                 TunnelStatus.active, none, true, true⟩)]
        "t3" ⟨true, none, none, false⟩).2.1 "t3"
      = some ⟨44, "t3", "t3", ["cloudflared", "tunnel", "run", "t3"], 0,
              TunnelStatus.active, none, true, true⟩ ∧
    (TunnelManager.stopTunnel
        [("t3", ⟨44, "t3", "t3", ["cloudflared", "tunnel", "run", "t3"], 0,
                 TunnelStatus.active, none, true, true⟩)]
        "t3" ⟨true, none, none, false⟩).2.2 = [ProcSignal.sigterm] := by
  have h1 := c3_stop_two_phase
      [("t1", ⟨42, "t1", "t1", ["cloudflared", "tunnel", "run", "t1"], 0,
               TunnelStatus.active, none, true, true⟩)]
      "t1" ⟨42, "t1", "t1", ["cloudflared", "tunnel", "run", "t1"], 0,
            TunnelStatus.active, none, true, true⟩
      ⟨false, some 3, none, false⟩ (by decide) rfl
  have h2 := c3_stop_two_phase
      [("t2", ⟨43, "t2", "t2", ["cloudflared", "tunnel", "run", "t2"], 0,
               TunnelStatus.active, none, true, true⟩)]
      "t2" ⟨43, "t2", "t2", ["cloudflared", "tunnel", "run", "t2"], 0,
            TunnelStatus.active, none, true, true⟩
      ⟨false, none, none, false⟩ (by decide) rfl
  have h3 := c3_stop_two_phase
      [("t3", ⟨44, "t3", "t3", ["cloudflared", "tunnel", "run", "t3"], 0,
               TunnelStatus.active, none, true, true⟩)]
      "t3" ⟨44, "t3", "t3", ["cloudflared", "tunnel", "run", "t3"], 0,
            TunnelStatus.active, none, true, true⟩
      ⟨true, none, none, false⟩ (by decide) rfl
  exact ⟨h1.1 rfl, h1.2.2.1 rfl (Or.inl (by decide)),
         h2.2.1 rfl (by decide), h2.2.2.1 rfl (Or.inr rfl),
         (h3.2.2.2.2 rfl).1, (h3.2.2.2.2 rfl).2.1, (h3.2.2.2.2 rfl).2.2⟩

/-- C6 counterexample: a remote config may carry the numeric id
9223372036854775807 (the largest 64-bit int); `maxID + 1` then wraps
to -9223372036854775808, and two successive successful inserts both
assign that same wrapped id — the assigned ids are neither distinct
nor increasing, and neither equals max + 1 as a mathematical
integer. -/
theorem c6_counterexample :
    (insertReqs ⟨[⟨"9223372036854775807", "big.example.com", "",
                   "http://localhost:9000", []⟩,
                  ⟨"", "", "", "http_status:404", []⟩], ⟨false⟩⟩
        [("a.example.com", "/one", "svc"), ("b.example.com", "/two", "svc")]).2
      = [-9223372036854775808, -9223372036854775808] ∧
    ¬ (insertReqs ⟨[⟨"9223372036854775807", "big.example.com", "",
                     "http://localhost:9000", []⟩,
                    ⟨"", "", "", "http_status:404", []⟩], ⟨false⟩⟩
        [("a.example.com", "/one", "svc"), ("b.example.com", "/two", "svc")]).2.Nodup := by
  decide

/-- C6 (amended): a successful insert assigns the id
`max(existing numeric ids) + 1` computed in 64-bit integer arithmetic,
ignoring non-numeric ids; provided the counter does not overflow
(max numeric id plus the number of inserts stays within int64), the
new maximum becomes exactly max + 1, the assigned id strictly exceeds
every existing numeric id, and across any sequence of successful
inserts into one config the assigned ids are strictly increasing and
pairwise distinct. At the int64 boundary the addition wraps and ids
repeat. -/
theorem c6_ids_monotone :
    (∀ (cfg : TunnelConfigData) (h p s : String) (cfg' : TunnelConfigData),
        addIngress cfg h p s = Except.ok cfg' →
        maxNumId cfg.ingress + 1 ≤ int64Max →
        maxNumId cfg'.ingress = maxNumId cfg.ingress + 1 ∧
        (∀ r ∈ cfg.ingress, ∀ v : Int, r.id ≠ "" → goAtoi r.id = some v →
          v < maxNumId cfg.ingress + 1)) ∧
    (∀ (cfg : TunnelConfigData) (reqs : List (String × String × String)),
        maxNumId cfg.ingress + (reqs.length : Int) ≤ int64Max →
        List.Chain' (fun a b : Int => a < b) (insertReqs cfg reqs).2 ∧
        (insertReqs cfg reqs).2.Nodup) := by
  constructor
  · intro cfg h p s cfg' hok hr
    refine ⟨maxNumId_addIngress cfg h p s cfg' hok hr, ?_⟩
    intro r hrmem v hid hv
    have := numeric_id_le_maxNumId r cfg.ingress v hrmem hid hv
    omega
  · intro cfg reqs hr
    obtain ⟨-, hchain⟩ := insertReqs_ids_spec reqs cfg hr
    refine ⟨hchain, ?_⟩
    have hpair : List.Pairwise (fun a b : Int => a < b) (insertReqs cfg reqs).2 :=
      List.chain'_iff_pairwise.mp hchain
    exact hpair.imp (fun hab => ne_of_lt hab)

/-- Witness for the amended C6: two inserts into a fresh config assign
strictly increasing, distinct ids. -/
theorem c6_witness :
    List.Chain' (fun a b : Int => a < b)
      (insertReqs ⟨[⟨"", "", "", "http_status:404", []⟩], ⟨false⟩⟩
        [("a.example.com", "", "svc"), ("b.example.com", "", "svc")]).2 ∧
    (insertReqs ⟨[⟨"", "", "", "http_status:404", []⟩], ⟨false⟩⟩
        [("a.example.com", "", "svc"), ("b.example.com", "", "svc")]).2.Nodup :=
  c6_ids_monotone.2 ⟨[⟨"", "", "", "http_status:404", []⟩], ⟨false⟩⟩
    [("a.example.com", "", "svc"), ("b.example.com", "", "svc")] (by decide)

end Tunnelman
